import Mathlib

/-!
# Verification of the sipe media-call subsystem

Shallow embedding of the media-call subsystem of the sipe repository
(`sipe-media.c`, `sipe-ft-lync.c`) together with proofs and refutations of
the specification claims about it.  All definitions are translated from the
C source; GLib lists become Lean lists, C structs become structures, and the
opaque backend is abstracted by record fields carrying the values the
backend accessors would return.

The file is organised as: data model, then the embedded operations, then
concrete example inputs, then the theorems.
-/

namespace Sipe

/-! ## Basic enumerations (from sipe-backend.h / sipe-core.h values used in the source) -/

/-- Media type of a stream (`SipeMediaType`). -/
inductive SipeMediaType
  | audio
  | video
  | application
deriving DecidableEq, Repr

/-- Candidate component (`SipeComponentType`): RTP or RTCP. -/
inductive SipeComponent
  | rtp
  | rtcp
deriving DecidableEq, Repr

/-- Candidate type (`SipeCandidateType`). -/
inductive SipeCandType
  | host
  | relay
  | srflx
  | prflx
  | any
deriving DecidableEq, Repr

/-- Network protocol of a candidate (`SipeNetworkProtocol`). -/
inductive SipeProtocol
  | udp
  | tcpActive
  | tcpPassive
deriving DecidableEq, Repr

/-- Encryption policy (`SipeEncryptionPolicy`). -/
inductive SipeEncryptionPolicy
  | obeyServer
  | rejected
  | optionalLevel
  | requiredLevel
deriving DecidableEq, Repr

/-- ICE version (`SipeIceVersion`): draft-6 (legacy) or rfc-5245. -/
inductive IceVersion
  | draft6
  | rfc5245
deriving DecidableEq, Repr

/-! ## C1: port-range selection in `sipe_media_stream_add` -/

/-- The per-media-type port ranges stored process-wide on
`sipe_core_private` (fields referenced by `sipe_media_stream_add`; the
video maximum exists alongside the others per the spec's separate
video range). -/
structure CorePortConfig where
  min_media_port : Nat
  max_media_port : Nat
  min_audio_port : Nat
  max_audio_port : Nat
  min_video_port : Nat
  max_video_port : Nat
  min_filetransfer_port : Nat
  max_filetransfer_port : Nat
  min_appsharing_port : Nat
  max_appsharing_port : Nat
deriving DecidableEq, Repr

/-- Port-range selection performed by `sipe_media_stream_add` before asking
the backend to gather local candidates: starts from the general
min/max media ports and then switches on the media type.  Translated
line-by-line from the C switch; note that the source's video branch reads
`max_port = sipe_private->max_audio_port`. -/
def stream_add_port_range (cfg : CorePortConfig) (type : SipeMediaType)
    (id : String) : Nat × Nat :=
  match type with
  | .audio => (cfg.min_audio_port, cfg.max_audio_port)
  | .video => (cfg.min_video_port, cfg.max_audio_port)
  | .application =>
    if id = "data" then (cfg.min_filetransfer_port, cfg.max_filetransfer_port)
    else if id = "applicationsharing" then
      (cfg.min_appsharing_port, cfg.max_appsharing_port)
    else (cfg.min_media_port, cfg.max_media_port)

/-- A concrete port configuration in which every media type has its own
distinct range, as the spec describes. -/
def portConfigDistinct : CorePortConfig :=
  ⟨5000, 5099, 5200, 5349, 5350, 5389, 5400, 5449, 5450, 5499⟩

/-! ## C9: `sipe_media_send_ack` -/

/-- The slice of `sip_dialog` that `sipe_media_send_ack` touches, together
with an opaque remainder `rest` standing for every other dialog field. -/
structure SipDialog (α : Type) where
  cseq : Int
  outgoing_invite : Option Nat
  rest : α
deriving DecidableEq, Repr

/-- `sipe_media_send_ack`.  `isMediaSessionMsg` and `hasDialog` are the two
guard conditions checked at the head of the function;
`transportAckCseq` abstracts the effect of `sip_transport_ack` on the
dialog's cseq.  Modelled from the spec: `sip_transport_ack` lives in
sip-transport.c, which is not among the sources; per the spec the dialog
layer bumps the cseq on each outbound request and owns no other per-call
state, so its effect on the dialog is an arbitrary update of `cseq`.
Returns the dialog after the call, the cseq value the ACK was sent
under (none when a guard failed) and the C return value. -/
def sipe_media_send_ack {α : Type} (isMediaSessionMsg : Bool) (hasDialog : Bool)
    (transportAckCseq : Int → Int) (transCseq : Int) (d : SipDialog α) :
    SipDialog α × Option Int × Bool :=
  if !isMediaSessionMsg then (d, none, false)
  else if !hasDialog then (d, none, false)
  else
    let tmp_cseq := d.cseq
    let d1 : SipDialog α := { d with cseq := transCseq - 1 }
    let ackCseq := d1.cseq
    let d2 : SipDialog α := { d1 with cseq := transportAckCseq d1.cseq }
    let d3 : SipDialog α := { d2 with cseq := tmp_cseq }
    let d4 : SipDialog α := { d3 with outgoing_invite := none }
    (d4, some ackCseq, true)

/-! ## C10: `process_get_av_edge_credentials_response` -/

/-- A media relay entry (`struct sipe_media_relay`). -/
structure MediaRelay where
  hostname : Option String
  udp_port : Int
  tcp_port : Int
deriving DecidableEq, Repr

/-- The process-wide MRAS state mutated by the credentials response
handler: `media_relay_username`, `media_relay_password`, `media_relays`. -/
structure MrasState where
  media_relay_username : Option String
  media_relay_password : Option String
  media_relays : List MediaRelay
deriving DecidableEq, Repr

/-- Decoded view of the XML body of a MRAS response, abstracting
`sipe_xml_parse` and the `sipe_xml_child` lookups performed by the
handler. -/
structure MrasBody where
  reasonPhraseOK : Bool
  username : Option String
  password : Option String
  relays : List MediaRelay
deriving DecidableEq, Repr

/-- A SIP SERVICE response as seen by the handler: status code and decoded
body. -/
structure MrasResponseMsg where
  response : Nat
  body : MrasBody
deriving DecidableEq, Repr

/-- `process_get_av_edge_credentials_response`: frees and clears the stored
credentials and relay list first, then examines the response.  Returns the
new MRAS state and the C return value. -/
def process_get_av_edge_credentials_response (st : MrasState)
    (msg : MrasResponseMsg) : MrasState × Bool :=
  let cleared : MrasState := ⟨none, none, []⟩
  let _ := st
  if 400 ≤ msg.response then (cleared, false)
  else if msg.response = 200 then
    if msg.body.reasonPhraseOK then
      (⟨msg.body.username, msg.body.password, msg.body.relays⟩, true)
    else (cleared, true)
  else (cleared, true)

/-! ## C8: Lync file-transfer completion (`sipe-ft-lync.c`) -/

/-- The fields of `struct sipe_file_transfer_lync` involved in completion
signalling. -/
structure FtLyncState where
  request_id : Nat
  file_size : Nat
deriving DecidableEq, Repr

/-- Value of a C `int` obtained by truncating a machine word to 32 bits. -/
def toInt32 (n : Nat) : Int :=
  let m : Nat := n % 2 ^ 32
  if m < 2 ^ 31 then (m : Int) else (m : Int) - 2 ^ 32

/-- `gsize` subtraction by one with 64-bit wraparound, as computed by
`ft_private->file_size - 1` in C. -/
def gsizeMinusOne (n : Nat) : Nat := (n % 2 ^ 64 + (2 ^ 64 - 1)) % 2 ^ 64

/-- The `fileTransferProgress` notify body sent by the receiver. -/
structure FtProgressNotify where
  transferId : Nat
  fromValue : Int
  toValue : Int
deriving DecidableEq, Repr

/-- Actions the sender-side notify handler can perform. -/
inductive FtAction
  | sendSuccessResponse (requestId : Nat)
  | deallocate
deriving DecidableEq, Repr

/-- `ft_lync_incoming_end`: the receiver signals completion by sending an
INFO `notify fileTransferProgress` with `transferId` the request id and
`bytesReceived` from 0 to `file_size - 1` (the value is formatted through
`%d`, i.e. as a C int). -/
def ft_lync_incoming_end (ft : FtLyncState) : FtProgressNotify :=
  { transferId := ft.request_id
    fromValue := 0
    toValue := toInt32 (gsizeMinusOne ft.file_size) }

/-- Decoded view of an inbound notify XML as examined by `process_notify`:
whether a `fileTransferProgress` child exists and the integer value
`atoi` produces from its `bytesReceived/to` text. -/
structure NotifyXml where
  hasProgressNode : Bool
  toValue : Int
deriving DecidableEq, Repr

/-- `process_notify` (sender side): when the notify carries a
`fileTransferProgress` whose `to` value equals `(int)(file_size - 1)`, a
`success` response for the stored request id is sent and the transfer is
deallocated (which hangs up the call); otherwise nothing happens. -/
def process_notify (ft : FtLyncState) (xml : NotifyXml) : List FtAction :=
  if xml.hasProgressNode then
    if xml.toValue = toInt32 (gsizeMinusOne ft.file_size) then
      [.sendSuccessResponse ft.request_id, .deallocate]
    else []
  else []

/-! ## Candidates -/

/-- A candidate.  The C source uses two isomorphic views — the opaque
`sipe_backend_candidate` (read through accessor functions) and
`struct sdpcandidate` — with identical fields; one structure serves for
both. -/
structure Candidate where
  foundation : String
  component : SipeComponent
  ctype : SipeCandType
  protocol : SipeProtocol
  ip : String
  port : Nat
  base_ip : String
  base_port : Nat
  priority : Nat
  username : String
  password : String
deriving DecidableEq, Repr

/-- Numeric value of a component, as in the C enum (RTP = 1, RTCP = 2). -/
def componentNum : SipeComponent → Nat
  | .rtp => 1
  | .rtcp => 2

/-- `candidate_sort_cb`: compare by foundation, then username, then
component. -/
def candidate_sort_cb (c1 c2 : Candidate) : Ordering :=
  (compare c1.foundation c2.foundation).then
    ((compare c1.username c2.username).then
      (compare (componentNum c1.component) (componentNum c2.component)))

/-- `g_slist_insert_sorted`: the new element is inserted before the first
element it does not compare greater than. -/
def insertSortedCand (c : Candidate) : List Candidate → List Candidate
  | [] => [c]
  | x :: xs =>
    if candidate_sort_cb c x = .gt then x :: insertSortedCand c xs
    else c :: x :: xs

/-- `backend_candidates_to_sdpcandidate`: drop IPv6 candidates (empty IP, or
a ':' in the IP or base IP; a NULL base IP is modelled as "") and build the
result with sorted insertion. -/
def backend_candidates_to_sdpcandidate (cands : List Candidate) : List Candidate :=
  cands.foldl
    (fun acc c =>
      if c.ip = "" ∨ c.ip.data.contains ':' ∨
         (c.base_ip ≠ "" ∧ c.base_ip.data.contains ':')
      then acc
      else insertSortedCand c acc)
    []

/-- The discard condition of `remove_wrong_farstream_0_1_tcp_candidates`,
applied to the current candidate `c1` and the first-seen candidate `c2` of
the same foundation: equal port, or equal base port while `c1` is not a
host candidate. -/
def rwCond (c1 c2 : Candidate) : Prop :=
  c1.port = c2.port ∨ (c1.ctype ≠ .host ∧ c1.base_port = c2.base_port)

instance (c1 c2 : Candidate) : Decidable (rwCond c1 c2) := by
  unfold rwCond; infer_instance

/-- Lookup in the `foundation_to_candidate` hash table, modelled as an
association list holding the list index of each stored candidate (the index
stands for the C pointer identity). -/
def rwLookup (m : List (String × Nat × Candidate)) (f : String) :
    Option (Nat × Candidate) :=
  (m.find? (fun e => e.1 == f)).map (·.2)

/-- The scan loop of `remove_wrong_farstream_0_1_tcp_candidates`: walk the
indexed candidate list; a UDP candidate whose foundation is already in the
table and that matches `rwCond` against the stored candidate causes both
list entries (by index) to be marked removed; otherwise a first UDP
candidate of its foundation is stored.  The table keeps its (stale) entry
after a removal, exactly as the C hash table does. -/
def rwLoop : List (Nat × Candidate) → List (String × Nat × Candidate) →
    List Nat → List Nat
  | [], _, removed => removed
  | (idx, c1) :: rest, m, removed =>
    if c1.protocol = .udp then
      match rwLookup m c1.foundation with
      | some (jdx, c2) =>
        if rwCond c1 c2 then rwLoop rest m (jdx :: idx :: removed)
        else rwLoop rest m removed
      | none => rwLoop rest ((c1.foundation, idx, c1) :: m) removed
    else rwLoop rest m removed

/-- `remove_wrong_farstream_0_1_tcp_candidates`: remove mistagged-TCP UDP
candidate pairs from the backend's candidate list. -/
def remove_wrong_farstream_0_1_tcp_candidates (cands : List Candidate) :
    List Candidate :=
  let removed := rwLoop cands.enum [] []
  (cands.enum.filter (fun p => decide (p.1 ∉ removed))).map Prod.snd

/-- The first TCP-passive candidate matching a TCP-active candidate `c`:
same type, same IP, same base IP — the inner search loop of
`fill_zero_tcp_act_ports_from_tcp_pass`. -/
def firstMatchingPassive (cands : List Candidate) (c : Candidate) :
    Option Candidate :=
  cands.find? (fun p =>
    p.protocol == .tcpPassive && p.ctype == c.ctype &&
    p.ip == c.ip && p.base_ip == c.base_ip)

/-- First loop of `fill_zero_tcp_act_ports_from_tcp_pass`, per element: a
TCP-active candidate inherits from the first matching TCP-passive candidate
its port (when the active's port is 0) and its base port (when the active's
base port is 0). -/
def fillActivePorts (cands : List Candidate) (c : Candidate) : Candidate :=
  if c.protocol = .tcpActive then
    match firstMatchingPassive cands c with
    | some p =>
      { c with
        port := if c.port = 0 then p.port else c.port
        base_port := if c.base_port = 0 then p.base_port else c.base_port }
    | none => c
  else c

/-- The `ip_to_port` hash table built by the first loop: it maps the IP of
every TCP-passive host candidate to its port, later insertions replacing
earlier ones, so a lookup returns the port of the last matching
candidate. -/
def ipToPortLookup (cands : List Candidate) (ip : String) : Option Nat :=
  ((cands.filter (fun p =>
      p.protocol == .tcpPassive && p.ctype == .host && p.ip == ip)).getLast?).map
    (·.port)

/-- Second loop of `fill_zero_tcp_act_ports_from_tcp_pass`, per element: a
relay candidate whose base port is 0 takes as base port the port found in
the `ip_to_port` table under its base IP, when present. -/
def fillRelayBasePort (cands : List Candidate) (c : Candidate) : Candidate :=
  if c.ctype = .relay ∧ c.base_port = 0 then
    match ipToPortLookup cands c.base_ip with
    | some p => { c with base_port := p }
    | none => c
  else c

/-- `fill_zero_tcp_act_ports_from_tcp_pass`: both loops in sequence.  (The
inner search of the first loop only ever reads TCP-passive candidates,
which the loop never mutates, so it is equivalent to searching the original
list; likewise the hash table holds the ports of TCP-passive host
candidates, which both loops leave unchanged.) -/
def fill_zero_tcp_act_ports_from_tcp_pass (cands : List Candidate) :
    List Candidate :=
  let afterActive := cands.map (fillActivePorts cands)
  afterActive.map (fillRelayBasePort afterActive)

/-! ## Codecs -/

/-- `struct sdpcodec`. -/
structure SdpCodec where
  id : Int
  name : String
  clock_rate : Nat
  mediaType : SipeMediaType
  parameters : List (String × String)
deriving DecidableEq, Repr

/-- A backend codec as read through the `sipe_backend_codec_get_*`
accessors. -/
structure BackendCodec where
  id : Int
  name : String
  clock_rate : Nat
  parameters : List (String × String)
deriving DecidableEq, Repr

/-- `sdpcodec_compare`: difference of the payload ids. -/
def sdpcodec_compare (a b : SdpCodec) : Int := a.id - b.id

/-- `g_slist_insert_sorted` for codecs: advance past elements the new codec
compares greater than, insert before the first other one. -/
def insertSortedCodec (c : SdpCodec) : List SdpCodec → List SdpCodec
  | [] => [c]
  | x :: xs =>
    if 0 < sdpcodec_compare c x then x :: insertSortedCodec c xs
    else c :: x :: xs

/-- Modelled from the spec: `sipe_utils_slist_insert_unique_sorted` is
defined in sipe-utils.c, which is not among the sources; per the spec
(§4.1) codecs "are kept sorted by payload id and de-duplicated on id", and
the call site in `media_stream_to_sdpmedia` comments that a codec with the
same id as one already in the converted list is ignored.  So: when the
list already holds a codec comparing equal, return it unchanged
(dropping the new codec); otherwise insert sorted. -/
def sipe_utils_slist_insert_unique_sorted (l : List SdpCodec) (c : SdpCodec) :
    List SdpCodec :=
  if l.any (fun x => sdpcodec_compare x c == 0) then l
  else insertSortedCodec c l

/-- Conversion of one backend codec to an `sdpcodec` (the `c = g_new0 …`
block of `media_stream_to_sdpmedia`), with the media type of the
containing stream. -/
def backendCodecToSdp (t : SipeMediaType) (bc : BackendCodec) : SdpCodec :=
  ⟨bc.id, bc.name, bc.clock_rate, t, bc.parameters⟩

/-- The codec-processing loop of `media_stream_to_sdpmedia`: convert each
backend codec and insert it unique-sorted into the section's codec list. -/
def convertCodecs (t : SipeMediaType) (bcs : List BackendCodec) :
    List SdpCodec :=
  bcs.foldl
    (fun acc bc => sipe_utils_slist_insert_unique_sorted acc (backendCodecToSdp t bc))
    []

/-! ## Streams, calls, SDP messages -/

/-- An SDP media section (`struct sdpmedia`). -/
structure SdpMedia where
  name : String
  port : Nat
  ip : Option String
  codecs : List SdpCodec
  candidates : List Candidate
  remote_candidates : List Candidate
  attributes : List (String × String)
  encryption_key : Option (List Nat)
  encryption_key_id : Int
  encryption_active : Bool
deriving DecidableEq, Repr

/-- An SDP message (`struct sdpmsg`). -/
structure SdpMsg where
  ip : Option String
  media : List SdpMedia
  ice_version : IceVersion
deriving DecidableEq, Repr

/-- Per-stream state: the fields of `sipe_media_stream_private` that the
embedded functions read or write, together with the per-stream data the
backend accessors would report (local codecs and candidates, held flag)
and the backend's verdict on a pushed remote codec list
(`sipe_backend_set_remote_codecs`). -/
structure StreamState where
  id : String
  encryption_key : Option (List Nat)
  encryption_key_id : Int
  remote_set : Bool
  extra_sdp : List (String × String)
  isHeld : Bool
  localCodecs : List BackendCodec
  localCandidates : List Candidate
  activeLocalCandidates : List Candidate
  activeRemoteCandidates : List Candidate
  acceptsRemoteCodecs : List SdpCodec → Bool
  remoteCandidatesApplied : List Candidate
  remoteKeyInstalled : Option (List Nat)

/-- Process-wide state read by the call functions. -/
structure CoreState where
  server_av_encryption_policy : SipeEncryptionPolicy

/-- Per-call state: the fields of `sipe_media_call_private` that the
embedded functions use, plus the backend's encryption policy setting. -/
structure CallState where
  withUri : String
  ice_version : IceVersion
  encryption_compatible : Bool
  backendEncryptionPolicy : SipeEncryptionPolicy
  streams : List StreamState
  failed_media : List SdpMedia

/-- `sipe_utils_nameval_find`: first value stored under a name. -/
def sipe_utils_nameval_find (l : List (String × String)) (n : String) :
    Option String :=
  (l.find? (fun e => e.1 == n)).map (·.2)

/-- `get_encryption_policy`: the backend's setting, with the "obey server"
sentinel resolved to the server's advertised default. -/
def get_encryption_policy (core : CoreState) (call : CallState) :
    SipeEncryptionPolicy :=
  if call.backendEncryptionPolicy = .obeyServer then
    core.server_av_encryption_policy
  else call.backendEncryptionPolicy

/-- `sipe_core_media_get_stream_by_id`, on the stream list. -/
def streamFind (streams : List StreamState) (id : String) :
    Option StreamState :=
  streams.find? (fun s => s.id == id)

/-- Output cell of `get_stream_ip_and_ports`. -/
structure IpPorts where
  ip : Option String
  rtp_port : Nat
  rtcp_port : Nat
deriving DecidableEq, Repr

/-- One candidate step of `get_stream_ip_and_ports`: record the RTP or RTCP
port. -/
def ipPortsStep (st : IpPorts) (c : Candidate) : IpPorts :=
  if c.component = .rtp then { st with rtp_port := c.port }
  else if c.component = .rtcp then { st with rtcp_port := c.port }
  else st

/-- Scan loop of `get_stream_ip_and_ports`: take the IP of the first
type-matching candidate, fill RTP/RTCP ports from candidates on that IP,
stop once both ports are known.  (In the C loop the early-return test runs
on every iteration, but its operands change only right after a port was
set, so testing after each update is equivalent.) -/
def ipPortsLoop (t : SipeCandType) : List Candidate → IpPorts → IpPorts
  | [], st => st
  | c :: rest, st =>
    if t = .any ∨ c.ctype = t then
      match st.ip with
      | none =>
        let st1 := ipPortsStep { st with ip := some c.ip } c
        if st1.rtp_port ≠ 0 ∧ st1.rtcp_port ≠ 0 then st1
        else ipPortsLoop t rest st1
      | some ip0 =>
        if ip0 = c.ip then
          let st1 := ipPortsStep st c
          if st1.rtp_port ≠ 0 ∧ st1.rtcp_port ≠ 0 then st1
          else ipPortsLoop t rest st1
        else ipPortsLoop t rest st
    else ipPortsLoop t rest st

/-- `get_stream_ip_and_ports`. -/
def get_stream_ip_and_ports (cands : List Candidate) (t : SipeCandType) :
    IpPorts :=
  ipPortsLoop t cands ⟨none, 0, 0⟩

/-- The wire value of the `encryption` attribute (the C switch defaults to
"required"). -/
def encryptionAttrValue : SipeEncryptionPolicy → String
  | .rejected => "rejected"
  | .optionalLevel => "optional"
  | _ => "required"

/-- Stream-id → media-type mapping at the head of
`media_stream_to_sdpmedia`; `none` is the "incompatible media" branch that
makes the function return NULL. -/
def mediaTypeOfName (n : String) : Option SipeMediaType :=
  if n = "audio" then some .audio
  else if n = "video" then some .video
  else if n = "data" then some .application
  else if n = "applicationsharing" then some .application
  else none

/-- `media_stream_to_sdpmedia`: build the SDP media section for one
stream — codecs converted and de-duplicated, candidates chosen (active
pairs if established, else normalised local ones), section IP/ports from a
host candidate falling back to any candidate, `inactive` / `rtcp` /
`encryption` attributes, the derived `encryption_active` flag, the local
key when the policy allows it, and the stream's extra attributes appended
last. -/
def media_stream_to_sdpmedia (core : CoreState) (call : CallState)
    (s : StreamState) : Option SdpMedia :=
  let encryption_policy := get_encryption_policy core call
  match mediaTypeOfName s.id with
  | none => none
  | some type =>
    let codecs := convertCodecs type s.localCodecs
    let candidates :=
      if s.activeLocalCandidates.isEmpty then
        remove_wrong_farstream_0_1_tcp_candidates s.localCandidates
      else s.activeLocalCandidates
    let sdpcands :=
      fill_zero_tcp_act_ports_from_tcp_pass
        (backend_candidates_to_sdpcandidate candidates)
    let hostPorts := get_stream_ip_and_ports sdpcands .host
    let ipPorts :=
      if hostPorts.ip = none ∧ ¬ sdpcands.isEmpty then
        get_stream_ip_and_ports sdpcands .any
      else hostPorts
    let attrs1 := if s.isHeld then [("inactive", "")] else []
    let attrs2 := attrs1 ++
      (if ipPorts.rtcp_port ≠ 0 then [("rtcp", toString ipPorts.rtcp_port)] else [])
    let attrs3 := attrs2 ++
      (if encryption_policy ≠ core.server_av_encryption_policy then
        [("encryption", encryptionAttrValue encryption_policy)]
      else [])
    let emitKey := s.encryption_key.isSome ∧ encryption_policy ≠ .rejected
    some
      { name := s.id
        port := ipPorts.rtp_port
        ip := ipPorts.ip
        codecs := codecs
        candidates := sdpcands
        remote_candidates :=
          backend_candidates_to_sdpcandidate s.activeRemoteCandidates
        attributes := attrs3 ++ s.extra_sdp
        encryption_key := if emitKey then s.encryption_key else none
        encryption_key_id := if emitKey then s.encryption_key_id else 0
        encryption_active :=
          s.encryption_key.isSome && call.encryption_compatible &&
          s.remote_set && decide (encryption_policy ≠ .rejected) }

/-- `sipe_media_to_sdpmsg`: one media section per live stream, the failed
media appended at the end (and handed over: the call afterwards retains
none), the message IP taken from the first section that has one. -/
def sipe_media_to_sdpmsg (core : CoreState) (call : CallState) :
    SdpMsg × CallState :=
  let medias := call.streams.filterMap (media_stream_to_sdpmedia core call)
  ({ ip := (medias.filterMap (·.ip)).head?
     media := medias ++ call.failed_media
     ice_version := call.ice_version },
   { call with failed_media := [] })

/-! ## Applying a remote SDP message -/

/-- Update the first stream satisfying the predicate (the C code mutates
the single stream object found by `sipe_core_media_get_stream_by_id`). -/
def modifyFirstStream (p : StreamState → Bool) (f : StreamState → StreamState) :
    List StreamState → List StreamState
  | [] => []
  | x :: xs => if p x then f x :: xs else x :: modifyFirstStream p f xs

/-- `update_call_from_remote_sdp` for one remote media section, acting on
the call's stream list.  A port-0 section ends the matching stream (stream
teardown removes it from the call); an unknown section fails; a known one
is held/unheld per the `inactive` attribute, gets the encryption keys
installed when both sides have one, has the remote codecs pushed to the
backend — the stream ends and the section fails when the backend refuses
them — and finally gets the remote candidates and the `remote-set` mark.
Returns the new stream list and the C boolean result. -/
def update_call_from_remote_sdp (streams : List StreamState)
    (media : SdpMedia) : List StreamState × Bool :=
  match streamFind streams media.name with
  | none => if media.port = 0 then (streams, true) else (streams, false)
  | some stream =>
    if media.port = 0 then
      (streams.eraseP (fun s => s.id == media.name), true)
    else
      let streams1 :=
        if (sipe_utils_nameval_find media.attributes "inactive").isSome then
          modifyFirstStream (fun s => s.id == media.name)
            (fun s => { s with isHeld := true }) streams
        else if stream.isHeld then
          modifyFirstStream (fun s => s.id == media.name)
            (fun s => { s with isHeld := false }) streams
        else streams
      if stream.remote_set then (streams1, true)
      else
        let streams2 :=
          if media.encryption_key.isSome ∧ stream.encryption_key.isSome then
            modifyFirstStream (fun s => s.id == media.name)
              (fun s =>
                { s with
                  remoteKeyInstalled := media.encryption_key
                  encryption_key_id := media.encryption_key_id }) streams1
          else streams1
        if stream.acceptsRemoteCodecs media.codecs then
          (modifyFirstStream (fun s => s.id == media.name)
            (fun s =>
              { s with
                remoteCandidatesApplied := media.candidates
                remote_set := true }) streams2, true)
        else
          (streams2.eraseP (fun s => s.id == media.name), false)

/-- The per-section loop of `apply_remote_message`: update the
encryption-compatible flag from each section's `encryption` attribute,
apply the section, and split the sections into failed ones (with port
forced to 0) and kept ones.  Returns (streams, encryption_compatible,
failed sections, kept sections). -/
def applyLoop (policy : SipeEncryptionPolicy) :
    List SdpMedia → List StreamState → Bool →
    List StreamState × Bool × List SdpMedia × List SdpMedia
  | [], streams, enc => (streams, enc, [], [])
  | m :: rest, streams, enc =>
    let enc1 :=
      if sipe_utils_nameval_find m.attributes "encryption" = some "rejected" ∧
         policy = .requiredLevel then false
      else enc
    let step := update_call_from_remote_sdp streams m
    let tail := applyLoop policy rest step.1 enc1
    if step.2 then
      (tail.1, tail.2.1, tail.2.2.1, m :: tail.2.2.2)
    else
      (tail.1, tail.2.1, { m with port := 0 } :: tail.2.2.1, tail.2.2.2)

/-- `apply_remote_message`: reset the failed list and the
encryption-compatible flag, apply every section, keep the failed sections
on the call (with port 0) and remove them from the incoming message.
Returns the call, the stripped message, and FALSE iff every section
failed. -/
def apply_remote_message (core : CoreState) (call : CallState)
    (msg : SdpMsg) : CallState × SdpMsg × Bool :=
  let policy := get_encryption_policy core call
  let r := applyLoop policy msg.media call.streams true
  ({ call with
      streams := r.1
      encryption_compatible := r.2.1
      failed_media := r.2.2.1 },
   { msg with media := r.2.2.2 },
   ¬ r.2.2.2.isEmpty)

/-! ## Outbound-INVITE response processing -/

/-- Observable actions of `process_invite_call_response` and
`maybe_retry_call_with_ice_version`. -/
inductive CallAction
  | notifyError
  | sendAckAction
  | backendHangup
  | initiateCall (uri : String) (ice : IceVersion) (withVideo : Bool)
  | transportResponse (code : Nat)
  | applyRemote
deriving DecidableEq, Repr

/-- The failure response message as read by
`process_invite_call_response`. -/
structure RespMsg where
  response : Nat
  responsestr : String
  ms_client_diagnostics : Option String
  ms_diagnostics : Option String
  bodyParses : Bool
deriving DecidableEq, Repr

/-- The exact (typo and all) 415 response string the server sends. -/
def archivingCdrStr : String :=
  "Mutipart mime in content type not supported by Archiving CDR service"

/-- `header && g_str_has_prefix(header, s)` on an optional header: the
header is present and its characters begin with those of `s`. -/
def diagStarts (h : Option String) (s : String) : Bool :=
  match h with
  | none => false
  | some v => s.data.isPrefixOf v.data

/-- `maybe_retry_call_with_ice_version`: when the call does not already use
the target ICE version and this response answers the very first INVITE
transaction (cseq 1), hang up the existing call and initiate a fresh one to
the same URI, with video iff the call has a `video` stream, under the
target ICE version. -/
def maybe_retry_call_with_ice_version (call : CallState)
    (target : IceVersion) (cseq : Nat) : Bool × List CallAction :=
  if call.ice_version ≠ target ∧ cseq = 1 then
    (true,
     [.backendHangup,
      .initiateCall call.withUri target (streamFind call.streams "video").isSome])
  else (false, [])

/-- `process_invite_call_response`, reduced to its observable actions.  For
responses ≥ 400: the 415 Archiving-CDR string retries with ICE draft-6, a
488 that does not signal incompatible encryption retries with rfc-5245
when `ms-diagnostics` starts with `7008;` (and with draft-6 otherwise);
every non-retried failure surfaces an error, ACKs, and hangs up.  For
success responses the SDP is parsed (488 + hangup on failure), applied,
and ACKed. -/
def process_invite_call_response (call : CallState) (cseq : Nat)
    (msg : RespMsg) : List CallAction :=
  if 400 ≤ msg.response then
    if msg.response = 415 then
      if msg.responsestr = archivingCdrStr then
        let r := maybe_retry_call_with_ice_version call .draft6 cseq
        if r.1 then r.2 else [.notifyError, .sendAckAction, .backendHangup]
      else [.notifyError, .sendAckAction, .backendHangup]
    else if msg.response = 488 then
      if msg.responsestr = "Encryption Levels not compatible" ∨
         diagStarts msg.ms_client_diagnostics "52017;" then
        [.notifyError, .sendAckAction, .backendHangup]
      else
        let target :=
          if diagStarts msg.ms_diagnostics "7008;" then IceVersion.rfc5245
          else IceVersion.draft6
        let r := maybe_retry_call_with_ice_version call target cseq
        if r.1 then r.2 else [.notifyError, .sendAckAction, .backendHangup]
    else [.notifyError, .sendAckAction, .backendHangup]
  else
    if msg.bodyParses then [.applyRemote, .sendAckAction]
    else [.transportResponse 488, .backendHangup]

/-- Number of fresh calls initiated in an action trace. -/
def initiateCount (l : List CallAction) : Nat :=
  (l.filter fun a =>
    match a with
    | .initiateCall _ _ _ => true
    | _ => false).length

/-! ## Concrete example inputs -/

/-- An RTP host UDP candidate, foundation `f1`, IP 10.0.0.1, port 2000. -/
def c5a1 : Candidate :=
  ⟨"f1", .rtp, .host, .udp, "10.0.0.1", 2000, "10.0.0.1", 2000, 1, "u", "pw"⟩

/-- The RTCP sibling of `c5a1`: same foundation, same IP, same port. -/
def c5a2 : Candidate :=
  ⟨"f1", .rtcp, .host, .udp, "10.0.0.1", 2000, "10.0.0.1", 2000, 1, "u", "pw"⟩

/-- An RTP host UDP candidate, foundation `f2`, IP 10.0.0.2, port 3000. -/
def c5b1 : Candidate :=
  ⟨"f2", .rtp, .host, .udp, "10.0.0.2", 3000, "10.0.0.2", 3000, 1, "u", "pw"⟩

/-- Same foundation and port as `c5b1` but on a different IP. -/
def c5b2 : Candidate :=
  ⟨"f2", .rtcp, .host, .udp, "10.0.0.3", 3000, "10.0.0.3", 3000, 1, "u", "pw"⟩

/-- A TCP-passive candidate used to witness that non-UDP candidates survive
the mistagged-TCP normalisation. -/
def c5tcp : Candidate :=
  ⟨"f1", .rtp, .host, .tcpPassive, "10.0.0.1", 2000, "10.0.0.1", 2000, 1, "u", "pw"⟩

/-- A TCP-passive host candidate whose IP (1.1.1.1) differs from its base
IP (2.2.2.2) and whose port (100) differs from its base port (200). -/
def c6host : Candidate :=
  ⟨"fh", .rtp, .host, .tcpPassive, "1.1.1.1", 100, "2.2.2.2", 200, 1, "u", "pw"⟩

/-- A relay candidate with base port 0 whose base IP equals `c6host`'s IP
(not its base IP). -/
def c6relay : Candidate :=
  ⟨"fr", .rtp, .relay, .udp, "3.3.3.3", 50, "1.1.1.1", 0, 1, "u", "pw"⟩

/-- A draft-6 call with no streams, for the C2 counterexample. -/
def c2callD6 : CallState := ⟨"sip:peer@example.com", .draft6, true, .obeyServer, [], []⟩

/-- An rfc-5245 call with no streams, for the C2 witness. -/
def c2callR19 : CallState := ⟨"sip:peer@example.com", .rfc5245, true, .obeyServer, [], []⟩

/-- A 488 response that carries both the incompatible-encryption response
string and an `ms-diagnostics` header starting with `7008;`. -/
def c2msgBoth : RespMsg :=
  ⟨488, "Encryption Levels not compatible", none, some "7008;reason=a", true⟩

/-- The 415 Archiving-CDR failure response. -/
def c2msg415 : RespMsg := ⟨415, archivingCdrStr, none, none, true⟩

/-- Core state with server encryption policy `optional`. -/
def c3core : CoreState := ⟨.optionalLevel⟩

/-- A live audio stream that accepts any remote codec list. -/
def c3audioStream : StreamState :=
  { id := "audio"
    encryption_key := none
    encryption_key_id := 0
    remote_set := false
    extra_sdp := []
    isHeld := false
    localCodecs := [⟨0, "PCMU", 8000, []⟩]
    localCandidates := []
    activeLocalCandidates := []
    activeRemoteCandidates := []
    acceptsRemoteCodecs := fun _ => true
    remoteCandidatesApplied := []
    remoteKeyInstalled := none }

/-- A call with a single audio stream and no failed media. -/
def c3call : CallState :=
  ⟨"sip:peer@example.com", .rfc5245, true, .obeyServer, [c3audioStream], []⟩

/-- A remote audio section matching the call's audio stream. -/
def c3mAudio : SdpMedia :=
  ⟨"audio", 5000, some "9.9.9.9", [⟨0, "PCMU", 8000, .audio, []⟩], [], [], [],
   none, 0, false⟩

/-- A remote video section with no matching stream on the call: its
application fails. -/
def c3mVideo : SdpMedia :=
  ⟨"video", 5002, some "9.9.9.9", [⟨97, "H264", 90000, .video, []⟩], [], [], [],
   none, 0, false⟩

/-- The remote message carrying both sections. -/
def c3rmsg : SdpMsg := ⟨some "9.9.9.9", [c3mAudio, c3mVideo], .rfc5245⟩

/-- The failed video section as retained on the call: port forced to 0. -/
def c3mVideoFailed : SdpMedia := { c3mVideo with port := 0 }

/-- A placeholder media section (used only to project out of an `Option`). -/
def mediaDummy : SdpMedia := ⟨"", 0, none, [], [], [], [], none, 0, false⟩

/-- The c3 call with the failed video section retained, as it is after
`apply_remote_message`. -/
def c3callFailed : CallState :=
  ⟨"sip:peer@example.com", .rfc5245, true, .obeyServer, [c3audioStream],
   [c3mVideoFailed]⟩

/-- Core state with server encryption policy `required`, for C7. -/
def c7core : CoreState := ⟨.requiredLevel⟩

/-- A call whose encryption-compatible flag is set, policy obey-server. -/
def c7call : CallState := ⟨"sip:peer@example.com", .rfc5245, true, .obeyServer, [], []⟩

/-- An audio stream with a local SRTP key that is remote-set. -/
def c7stream : StreamState :=
  { id := "audio"
    encryption_key := some (List.replicate 30 7)
    encryption_key_id := 1
    remote_set := true
    extra_sdp := []
    isHeld := false
    localCodecs := []
    localCandidates := []
    activeLocalCandidates := []
    activeRemoteCandidates := []
    acceptsRemoteCodecs := fun _ => true
    remoteCandidatesApplied := []
    remoteKeyInstalled := none }

/-- Invariant of the codec-conversion loop: the section codec list is
strictly sorted by payload id, holds exactly the *first* already-processed
codec of each id, and covers every processed id. -/
def CodecInv (done acc : List SdpCodec) : Prop :=
  acc.Pairwise (fun a b => a.id < b.id) ∧
  (∀ x, x ∈ acc ↔ done.find? (fun y => y.id == x.id) = some x) ∧
  (∀ y ∈ done, ∃ x ∈ acc, x.id = y.id)

/-- Every id of a derived stream list is the id of some original stream. -/
def IdsSub (l l' : List StreamState) : Prop :=
  ∀ s ∈ l', ∃ s0 ∈ l, s0.id = s.id

/-- Core state for the C4 witness. -/
def c4core : CoreState := ⟨.optionalLevel⟩

/-- Call for the C4 witness. -/
def c4call : CallState := ⟨"sip:peer@example.com", .rfc5245, true, .obeyServer, [], []⟩

/-- An audio stream whose backend reports two codecs with payload id 0 (a
duplicate) and one with id 8, listed out of order. -/
def c4stream : StreamState :=
  { id := "audio"
    encryption_key := none
    encryption_key_id := 0
    remote_set := false
    extra_sdp := []
    isHeld := false
    localCodecs := [⟨8, "PCMA", 8000, []⟩, ⟨0, "PCMU", 8000, []⟩,
                    ⟨0, "dup", 8000, []⟩]
    localCandidates := []
    activeLocalCandidates := []
    activeRemoteCandidates := []
    acceptsRemoteCodecs := fun _ => true
    remoteCandidatesApplied := []
    remoteKeyInstalled := none }

end Sipe

namespace Sipe

/-! ## Theorems -/

/-- Claim C1: the spec requires every media type to gather candidates over
its own port range (video over `min_video_port`/`max_video_port`), and the
surrounding code pairs each minimum with the maximum of the same range; the
source's video branch instead pairs `min_video_port` with
`max_audio_port`.  Evaluated at a configuration whose ranges are distinct:
the selected video range is (5350, 5349) — its maximum is the audio
maximum, not the video maximum 5389, so the selected range is even empty. -/
theorem C1_video_range_uses_audio_max :
    stream_add_port_range portConfigDistinct .video "video" = (5350, 5349) ∧
    (stream_add_port_range portConfigDistinct .video "video").2 =
      portConfigDistinct.max_audio_port ∧
    portConfigDistinct.max_audio_port ≠ portConfigDistinct.max_video_port ∧
    (stream_add_port_range portConfigDistinct .audio "audio" =
      (portConfigDistinct.min_audio_port, portConfigDistinct.max_audio_port)) ∧
    (stream_add_port_range portConfigDistinct .application "data" =
      (portConfigDistinct.min_filetransfer_port, portConfigDistinct.max_filetransfer_port)) ∧
    (stream_add_port_range portConfigDistinct .application "applicationsharing" =
      (portConfigDistinct.min_appsharing_port, portConfigDistinct.max_appsharing_port)) ∧
    (stream_add_port_range portConfigDistinct .application "x" =
      (portConfigDistinct.min_media_port, portConfigDistinct.max_media_port)) := by
  decide

/-- Claim C9: when the guards pass, `sipe_media_send_ack` sends the ACK
under the transaction's cseq minus one, and the dialog after the call
differs from the dialog before it only in `outgoing_invite`, which is
cleared — the cseq is saved, temporarily overwritten for the duration of
the ACK transmission (whatever `sip_transport_ack` does to it), and
restored. -/
theorem C9_send_ack_frame (α : Type) (f : Int → Int) (transCseq : Int)
    (d : SipDialog α) :
    sipe_media_send_ack true true f transCseq d =
      ({ d with outgoing_invite := none }, some (transCseq - 1), true) := by
  cases d
  simp [sipe_media_send_ack]

/-- Claim C10: `process_get_av_edge_credentials_response` clears the stored
relay credentials and relay list before looking at the response body — its
result never depends on the previous state — and a response with code 400
or greater leaves the client with no credentials and no relays. -/
theorem C10_mras_reset_before_examination (st st' : MrasState)
    (msg : MrasResponseMsg) :
    process_get_av_edge_credentials_response st msg =
      process_get_av_edge_credentials_response st' msg ∧
    (400 ≤ msg.response →
      (process_get_av_edge_credentials_response st msg).1 = ⟨none, none, []⟩) := by
  constructor
  · simp [process_get_av_edge_credentials_response]
  · intro h
    simp [process_get_av_edge_credentials_response, h]

/-- Closed witness for C10 at a concrete 401 response: stale credentials are
wiped rather than retained. -/
theorem C10_mras_reset_witness :
    (process_get_av_edge_credentials_response
        ⟨some "user", some "pass", [⟨some "relay.example", 3478, 443⟩]⟩
        ⟨401, ⟨false, none, none, []⟩⟩).1 = ⟨none, none, []⟩ :=
  (C10_mras_reset_before_examination
    ⟨some "user", some "pass", [⟨some "relay.example", 3478, 443⟩]⟩
    ⟨none, none, []⟩ ⟨401, ⟨false, none, none, []⟩⟩).2 (by decide)

/-- Claim C8: for a transfer of `size` bytes (any realistic size: at least
1 byte and below 2^31), the receiver's completion notify carries
`bytesReceived/to = size - 1`; the sender's `process_notify`, on a
progress notify whose `to` equals `size - 1`, answers with a `success`
response for the stored request id and deallocates (hanging up the call),
and on any other `to` value performs no action at all. -/
theorem C8_ft_completion (rid size : Nat) (h1 : 1 ≤ size)
    (h2 : size < 2 ^ 31) :
    (ft_lync_incoming_end ⟨rid, size⟩).toValue = (size : Int) - 1 ∧
    process_notify ⟨rid, size⟩ ⟨true, (size : Int) - 1⟩ =
      [.sendSuccessResponse rid, .deallocate] ∧
    (∀ v : Int, v ≠ (size : Int) - 1 →
      process_notify ⟨rid, size⟩ ⟨true, v⟩ = []) := by
  have hsz : gsizeMinusOne size = size - 1 := by
    unfold gsizeMinusOne
    have h64 : size < 2 ^ 64 := lt_of_lt_of_le h2 (by norm_num)
    rw [Nat.mod_eq_of_lt h64]
    have : size + (2 ^ 64 - 1) = (size - 1) + 1 * 2 ^ 64 := by omega
    rw [this, Nat.add_mul_mod_self_right]
    exact Nat.mod_eq_of_lt (by omega)
  have hto : toInt32 (gsizeMinusOne size) = (size : Int) - 1 := by
    rw [hsz]
    unfold toInt32
    have hlt : size - 1 < 2 ^ 31 := by omega
    rw [Nat.mod_eq_of_lt (by omega : size - 1 < 2 ^ 32)]
    rw [if_pos hlt]
    omega
  refine ⟨?_, ?_, ?_⟩
  · simp [ft_lync_incoming_end, hto]
  · simp [process_notify, hto]
  · intro v hv
    simp [process_notify, hto, hv]

/-- Claim C5 counterexample: the source's discard test never compares IPs
(and checks only the later candidate's type), so the pair `c5b1`/`c5b2` —
same foundation, equal ports, but *different* IPs and both host-type, hence
not covered by the claim's discard condition — is discarded together with
the genuinely matching pair `c5a1`/`c5a2`, instead of being kept as the
claim demands. -/
theorem C5_counterexample :
    remove_wrong_farstream_0_1_tcp_candidates [c5a1, c5a2, c5b1, c5b2] = [] ∧
    c5a1.ip = c5a2.ip ∧ c5a1.port = c5a2.port ∧
    c5a1.foundation = c5a2.foundation ∧
    c5b1.foundation = c5b2.foundation ∧ c5b1.foundation ≠ c5a1.foundation ∧
    c5b1.ip ≠ c5b2.ip ∧ c5b1.ctype = .host ∧ c5b2.ctype = .host ∧
    c5b1.port = c5b2.port ∧
    (∀ c ∈ [c5a1, c5a2, c5b1, c5b2], c.protocol = .udp) := by
  decide

/-- Claim C6 counterexample: the relay's zero base port is filled from the
`ip_to_port` table, which maps a TCP-passive host candidate's *IP* to its
*port*.  Here the only host candidate has IP 1.1.1.1 (= the relay's base
IP) but base IP 2.2.2.2 and base port 200; the code sets the relay's base
port to the host's port 100, while the claim — inheriting "the base-port
of a host candidate with the same base IP" — predicts either 200 or no
change (0), and in fact no host candidate has base IP 1.1.1.1 at all. -/
theorem C6_counterexample :
    fill_zero_tcp_act_ports_from_tcp_pass [c6host, c6relay] =
      [c6host, { c6relay with base_port := 100 }] ∧
    c6host.base_ip ≠ c6relay.base_ip ∧
    c6host.base_port = 200 ∧ c6host.port = 100 ∧
    (100 : Nat) ≠ 200 ∧ (100 : Nat) ≠ 0 := by
  decide

/-- Claim C2 counterexample: a 488 whose response string is `Encryption
Levels not compatible` *and* whose `ms-diagnostics` starts with `7008;`
satisfies the claim's retry condition (cseq 1, ICE version differs from
rfc-5245), yet the code takes the incompatible-encryption branch first and
issues no retry at all. -/
theorem C2_counterexample :
    c2msgBoth.response = 488 ∧
    diagStarts c2msgBoth.ms_diagnostics "7008;" = true ∧
    c2callD6.ice_version ≠ .rfc5245 ∧
    initiateCount (process_invite_call_response c2callD6 1 c2msgBoth) = 0 ∧
    process_invite_call_response c2callD6 1 c2msgBoth =
      [.notifyError, .sendAckAction, .backendHangup] := by
  decide

/-- Claim C3 counterexample: after the video section fails, it is present
(with port 0) in the next serialised SDP, but serialisation hands the
failed sections over to the emitted message, so the *second* serialised
SDP of the same call no longer carries the failed section — it does not
appear in "every subsequently serialised SDP". -/
theorem C3_counterexample :
    (∃ m ∈ (sipe_media_to_sdpmsg c3core
        (apply_remote_message c3core c3call c3rmsg).1).1.media,
      m.name = "video" ∧ m.port = 0) ∧
    (∀ m ∈ (sipe_media_to_sdpmsg c3core
        (sipe_media_to_sdpmsg c3core
          (apply_remote_message c3core c3call c3rmsg).1).2).1.media,
      m.name ≠ "video") := by
  decide

/-- Closed witness for C8 at a 2048-byte transfer with request id 7: the
receiver announces `to = 2047`, the sender answers success for id 7 and
deallocates, and `to = 5` triggers nothing. -/
theorem C8_ft_completion_witness :
    1 ≤ 2048 ∧
    process_notify ⟨7, 2048⟩ ⟨true, 2047⟩ =
      [.sendSuccessResponse 7, .deallocate] ∧
    process_notify ⟨7, 2048⟩ ⟨true, 5⟩ = [] := by
  refine ⟨by decide, ?_, ?_⟩
  · exact (C8_ft_completion 7 2048 (by decide) (by decide)).2.1
  · exact (C8_ft_completion 7 2048 (by decide) (by decide)).2.2 5 (by decide)

/-- Claim C7: in every serialised media section, `encryption_active` is
true iff a local SRTP key exists, the call's encryption-compatible flag is
set, the stream is remote-set, and the effective encryption policy is not
`rejected`. -/
theorem C7_encryption_active_iff (core : CoreState) (call : CallState)
    (s : StreamState) (m : SdpMedia)
    (h : media_stream_to_sdpmedia core call s = some m) :
    m.encryption_active = true ↔
      (s.encryption_key.isSome = true ∧ call.encryption_compatible = true ∧
       s.remote_set = true ∧ get_encryption_policy core call ≠ .rejected) := by
  unfold media_stream_to_sdpmedia at h
  cases hmt : mediaTypeOfName s.id with
  | none => rw [hmt] at h; exact absurd h (by simp)
  | some t =>
    rw [hmt] at h
    simp only [Option.some.injEq] at h
    subst h
    simp [Bool.and_eq_true, decide_eq_true_eq, and_assoc]

/-- Closed witness for C7: a stream with a local key, on a compatible call,
remote-set, under policy `required`, serialises with `encryption_active`
set. -/
theorem C7_encryption_active_witness :
    ((media_stream_to_sdpmedia c7core c7call c7stream).getD mediaDummy).encryption_active
      = true := by
  have h : media_stream_to_sdpmedia c7core c7call c7stream =
      some ((media_stream_to_sdpmedia c7core c7call c7stream).getD mediaDummy) := rfl
  exact (C7_encryption_active_iff c7core c7call c7stream _ h).mpr
    ⟨rfl, rfl, rfl, by decide⟩

/-- `maybe_retry_call_with_ice_version` unfolded to a single conditional. -/
theorem maybe_retry_eq (call : CallState) (target : IceVersion) (cseq : Nat) :
    maybe_retry_call_with_ice_version call target cseq =
      if call.ice_version ≠ target ∧ cseq = 1 then
        (true,
         [.backendHangup,
          .initiateCall call.withUri target (streamFind call.streams "video").isSome])
      else (false, []) := rfl

/-- A retry trace never initiates more than one call. -/
theorem initiateCount_retry_le (call : CallState) (target : IceVersion)
    (cseq : Nat) :
    initiateCount (maybe_retry_call_with_ice_version call target cseq).2 ≤ 1 := by
  rw [maybe_retry_eq]
  split
  · simp [initiateCount]
  · simp [initiateCount]

/-- Either branch of a retry attempt initiates at most one call. -/
theorem initiateCount_retry_branch_le (call : CallState) (target : IceVersion)
    (cseq : Nat) :
    initiateCount
      (if (maybe_retry_call_with_ice_version call target cseq).1 = true then
        (maybe_retry_call_with_ice_version call target cseq).2
      else [.notifyError, .sendAckAction, .backendHangup]) ≤ 1 := by
  split
  · exact initiateCount_retry_le ..
  · simp [initiateCount]

/-- Claim C2 (amended): for a first-transaction (cseq 1) failure response
that is either the 415 Archiving-CDR response or a 488 with
`ms-diagnostics` starting `7008;` that does not also carry the
incompatible-encryption markers, exactly one retry is issued — the call is
hung up and a fresh call initiated to the same URI with the same
video/no-video choice under the alternative ICE version (draft-6 for 415,
rfc-5245 for 488) — and no retry happens when cseq differs from 1 or the
call already uses the target ICE version; no response ever initiates more
than one call. -/
theorem C2_retry_rules (call : CallState) (cseq : Nat) (msg : RespMsg) :
    (cseq = 1 → msg.response = 415 → msg.responsestr = archivingCdrStr →
      call.ice_version ≠ .draft6 →
      process_invite_call_response call cseq msg =
        [.backendHangup,
         .initiateCall call.withUri .draft6 (streamFind call.streams "video").isSome]) ∧
    (cseq = 1 → msg.response = 488 →
      msg.responsestr ≠ "Encryption Levels not compatible" →
      diagStarts msg.ms_client_diagnostics "52017;" = false →
      diagStarts msg.ms_diagnostics "7008;" = true →
      call.ice_version ≠ .rfc5245 →
      process_invite_call_response call cseq msg =
        [.backendHangup,
         .initiateCall call.withUri .rfc5245 (streamFind call.streams "video").isSome]) ∧
    (cseq ≠ 1 → initiateCount (process_invite_call_response call cseq msg) = 0) ∧
    (msg.response = 415 → call.ice_version = .draft6 →
      initiateCount (process_invite_call_response call cseq msg) = 0) ∧
    (msg.response = 488 → diagStarts msg.ms_diagnostics "7008;" = true →
      call.ice_version = .rfc5245 →
      initiateCount (process_invite_call_response call cseq msg) = 0) ∧
    initiateCount (process_invite_call_response call cseq msg) ≤ 1 := by
  refine ⟨?_, ?_, ?_, ?_, ?_, ?_⟩
  · intro hq hr hs hice
    simp [process_invite_call_response, hr, hs, maybe_retry_eq, hice, hq]
  · intro hq hr hs hcd hd hice
    simp [process_invite_call_response, hr, hs, hcd, hd, maybe_retry_eq, hice, hq]
  · intro hq
    unfold process_invite_call_response
    simp only [maybe_retry_eq, hq, and_false, if_false]
    split_ifs <;> simp [initiateCount]
  · intro hr hice
    unfold process_invite_call_response
    simp only [maybe_retry_eq, hice, ne_eq, not_true_eq_false, false_and, if_false, hr]
    split_ifs <;> simp [initiateCount]
  · intro hr hd hice
    unfold process_invite_call_response
    simp only [hr, hd, hice, maybe_retry_eq]
    split_ifs <;> simp_all [initiateCount]
  · unfold process_invite_call_response
    split_ifs <;>
      first
        | exact initiateCount_retry_branch_le ..
        | simp [initiateCount]

/-- Closed witness for C2: a cseq-1 415 Archiving-CDR failure on an
rfc-5245 call hangs up and re-initiates to the same URI, same video
choice, under ICE draft-6. -/
theorem C2_retry_rules_witness :
    process_invite_call_response c2callR19 1 c2msg415 =
      [.backendHangup,
       .initiateCall c2callR19.withUri .draft6
         (streamFind c2callR19.streams "video").isSome] :=
  (C2_retry_rules c2callR19 1 c2msg415).1 rfl rfl rfl (by decide)

/-- `fillActivePorts` never changes a candidate's protocol. -/
theorem fillActivePorts_protocol (cs : List Candidate) (c : Candidate) :
    (fillActivePorts cs c).protocol = c.protocol := by
  unfold fillActivePorts
  split
  · split <;> rfl
  · rfl

/-- `fillActivePorts` never changes a candidate's type. -/
theorem fillActivePorts_ctype (cs : List Candidate) (c : Candidate) :
    (fillActivePorts cs c).ctype = c.ctype := by
  unfold fillActivePorts
  split
  · split <;> rfl
  · rfl

/-- `fillActivePorts` is the identity on non-TCP-active candidates. -/
theorem fillActivePorts_not_active (cs : List Candidate) (c : Candidate)
    (h : ¬ c.protocol = .tcpActive) : fillActivePorts cs c = c := by
  unfold fillActivePorts
  rw [if_neg h]

/-- The TCP-passive-host filter is unchanged by the first loop's port
filling (that loop only rewrites TCP-active candidates). -/
theorem passive_filter_fillActive (cs cands : List Candidate) (ip : String) :
    ((cands.map (fillActivePorts cs)).filter (fun p =>
      p.protocol == SipeProtocol.tcpPassive && p.ctype == SipeCandType.host &&
        p.ip == ip)) =
    cands.filter (fun p =>
      p.protocol == SipeProtocol.tcpPassive && p.ctype == SipeCandType.host &&
        p.ip == ip) := by
  induction cands with
  | nil => rfl
  | cons x xs ih =>
    simp only [List.map_cons]
    by_cases hx : x.protocol = SipeProtocol.tcpActive
    · have h1 : (fillActivePorts cs x).protocol = x.protocol :=
        fillActivePorts_protocol ..
      have hpf : ((fillActivePorts cs x).protocol == SipeProtocol.tcpPassive &&
          (fillActivePorts cs x).ctype == SipeCandType.host &&
          (fillActivePorts cs x).ip == ip) = false := by
        rw [h1, hx]; rfl
      have hpx : (x.protocol == SipeProtocol.tcpPassive &&
          x.ctype == SipeCandType.host && x.ip == ip) = false := by
        rw [hx]; rfl
      rw [List.filter_cons_of_neg (by simp [hpf]),
          List.filter_cons_of_neg (by simp [hpx])]
      exact ih
    · rw [fillActivePorts_not_active cs x hx]
      simp only [List.filter_cons]
      rw [ih]

/-- The `ip_to_port` table is the same whether built before or after the
TCP-active port filling. -/
theorem ipToPortLookup_fillActive (cs cands : List Candidate) (ip : String) :
    ipToPortLookup (cands.map (fillActivePorts cs)) ip = ipToPortLookup cands ip := by
  unfold ipToPortLookup
  rw [passive_filter_fillActive]

/-- Element-wise view of `fill_zero_tcp_act_ports_from_tcp_pass`. -/
theorem fill_zero_getElem? (cands : List Candidate) (i : Nat) (c : Candidate)
    (h : cands[i]? = some c) :
    (fill_zero_tcp_act_ports_from_tcp_pass cands)[i]? =
      some (fillRelayBasePort (cands.map (fillActivePorts cands))
              (fillActivePorts cands c)) := by
  unfold fill_zero_tcp_act_ports_from_tcp_pass
  rw [List.getElem?_map, List.getElem?_map, h]
  rfl

/-- Claim C6 (amended): a TCP-active non-relay candidate inherits from the
*first* TCP-passive candidate with the same type, IP and base IP its port
(when the active's port is 0) and its base port (when the active's base
port is 0); a relay candidate that is not TCP-active and has base port 0
inherits as base port the *port* of the last TCP-passive *host* candidate
whose *IP* equals the relay's base IP, and is left unchanged when no such
candidate exists. -/
theorem C6_port_inheritance :
    (∀ (cands : List Candidate) (i : Nat) (c p : Candidate),
      cands[i]? = some c → c.protocol = .tcpActive → c.ctype ≠ .relay →
      firstMatchingPassive cands c = some p →
      (fill_zero_tcp_act_ports_from_tcp_pass cands)[i]? =
        some { c with
                 port := if c.port = 0 then p.port else c.port
                 base_port := if c.base_port = 0 then p.base_port else c.base_port }) ∧
    (∀ (cands : List Candidate) (i : Nat) (c : Candidate),
      cands[i]? = some c → c.ctype = .relay → c.protocol ≠ .tcpActive →
      c.base_port = 0 →
      (fill_zero_tcp_act_ports_from_tcp_pass cands)[i]? =
        some (match ipToPortLookup cands c.base_ip with
              | some q => { c with base_port := q }
              | none => c)) := by
  constructor
  · intro cands i c p h hact hrel hfmp
    rw [fill_zero_getElem? cands i c h]
    have hfa : fillActivePorts cands c =
        { c with
            port := if c.port = 0 then p.port else c.port
            base_port := if c.base_port = 0 then p.base_port else c.base_port } := by
      unfold fillActivePorts
      rw [if_pos hact, hfmp]
    rw [hfa]
    unfold fillRelayBasePort
    rw [if_neg (fun hh => hrel hh.1)]
  · intro cands i c h hrel hact hbp
    rw [fill_zero_getElem? cands i c h]
    rw [fillActivePorts_not_active cands c hact]
    unfold fillRelayBasePort
    rw [if_pos ⟨hrel, hbp⟩, ipToPortLookup_fillActive]

/-- Closed witness for C6 at the host/relay pair: the relay's base port is
filled from the `ip_to_port` table entry under its base IP. -/
theorem C6_port_inheritance_witness :
    (fill_zero_tcp_act_ports_from_tcp_pass [c6host, c6relay])[1]? =
      some (match ipToPortLookup [c6host, c6relay] c6relay.base_ip with
            | some q => { c6relay with base_port := q }
            | none => c6relay) :=
  C6_port_inheritance.2 [c6host, c6relay] 1 c6relay rfl rfl (by decide) rfl

/-- A candidate stored in the foundation table was put there from the
scanned list: lookup success exhibits a table entry. -/
theorem rwLookup_mem (m : List (String × Nat × Candidate)) (f : String)
    (j : Nat) (c : Candidate) (h : rwLookup m f = some (j, c)) :
    ∃ g, (g, j, c) ∈ m := by
  unfold rwLookup at h
  cases hf : m.find? (fun e => e.1 == f) with
  | none => rw [hf] at h; exact absurd h (by simp)
  | some e =>
    rw [hf] at h
    have h2 : e.2 = (j, c) := by simpa using h
    have hm := List.mem_of_find?_eq_some hf
    have he : (e.1, j, c) = e := by rw [← h2]
    exact ⟨e.1, by rw [he]; exact hm⟩

/-- Every index the scan loop marks removed is an initially marked one, the
index of a UDP candidate still to be scanned, or an index stored in the
foundation table. -/
theorem rwLoop_mem (todo : List (Nat × Candidate))
    (m : List (String × Nat × Candidate)) (removed : List Nat) (j : Nat)
    (hj : j ∈ rwLoop todo m removed) :
    j ∈ removed ∨ (∃ c, (j, c) ∈ todo ∧ c.protocol = .udp) ∨
      (∃ g c, (g, j, c) ∈ m) := by
  induction todo generalizing m removed with
  | nil =>
    simp only [rwLoop] at hj
    exact Or.inl hj
  | cons hd rest ih =>
    obtain ⟨idx, c1⟩ := hd
    simp only [rwLoop] at hj
    by_cases hud : c1.protocol = SipeProtocol.udp
    · rw [if_pos hud] at hj
      cases hlk : rwLookup m c1.foundation with
      | none =>
        rw [hlk] at hj
        rcases ih _ _ hj with h | ⟨c, hc, hcu⟩ | ⟨g, c, hgc⟩
        · exact Or.inl h
        · exact Or.inr (Or.inl ⟨c, List.mem_cons_of_mem _ hc, hcu⟩)
        · rcases List.mem_cons.mp hgc with heq | hm
          · have hji : j = idx := congrArg (fun t => t.2.1) heq
            have hcc : c = c1 := congrArg (fun t => t.2.2) heq
            exact Or.inr (Or.inl ⟨c1, by rw [hji]; exact List.mem_cons_self .., hud⟩)
          · exact Or.inr (Or.inr ⟨g, c, hm⟩)
      | some pr =>
        obtain ⟨jdx, c2⟩ := pr
        rw [hlk] at hj
        by_cases hcnd : rwCond c1 c2
        · have hj2 : j ∈ rwLoop rest m (jdx :: idx :: removed) := by
            have hj1 : j ∈ (if rwCond c1 c2 then rwLoop rest m (jdx :: idx :: removed)
                else rwLoop rest m removed) := hj
            rwa [if_pos hcnd] at hj1
          rcases ih _ _ hj2 with h | ⟨c, hc, hcu⟩ | ⟨g, c, hgc⟩
          · rcases List.mem_cons.mp h with h0 | h0
            · subst h0
              rcases rwLookup_mem m c1.foundation j c2 hlk with ⟨g, hg⟩
              exact Or.inr (Or.inr ⟨g, c2, hg⟩)
            · rcases List.mem_cons.mp h0 with h1 | h1
              · subst h1
                exact Or.inr (Or.inl ⟨c1, List.mem_cons_self .., hud⟩)
              · exact Or.inl h1
          · exact Or.inr (Or.inl ⟨c, List.mem_cons_of_mem _ hc, hcu⟩)
          · exact Or.inr (Or.inr ⟨g, c, hgc⟩)
        · have hj2 : j ∈ rwLoop rest m removed := by
            have hj1 : j ∈ (if rwCond c1 c2 then rwLoop rest m (jdx :: idx :: removed)
                else rwLoop rest m removed) := hj
            rwa [if_neg hcnd] at hj1
          rcases ih _ _ hj2 with h | ⟨c, hc, hcu⟩ | ⟨g, c, hgc⟩
          · exact Or.inl h
          · exact Or.inr (Or.inl ⟨c, List.mem_cons_of_mem _ hc, hcu⟩)
          · exact Or.inr (Or.inr ⟨g, c, hgc⟩)
    · rw [if_neg hud] at hj
      rcases ih _ _ hj with h | ⟨c, hc, hcu⟩ | ⟨g, c, hgc⟩
      · exact Or.inl h
      · exact Or.inr (Or.inl ⟨c, List.mem_cons_of_mem _ hc, hcu⟩)
      · exact Or.inr (Or.inr ⟨g, c, hgc⟩)

/-- Claim C5 (amended): for a two-candidate list the normalisation discards
both candidates exactly when both are UDP, share their foundation, and the
later one has the same port as the first or — being itself non-host — the
same base port; the candidates' IPs play no role.  In any list, a
non-UDP candidate is always kept. -/
theorem C5_discard_rule :
    (∀ a b : Candidate,
      remove_wrong_farstream_0_1_tcp_candidates [a, b] =
        if a.protocol = .udp ∧ b.protocol = .udp ∧
           b.foundation = a.foundation ∧ rwCond b a
        then [] else [a, b]) ∧
    (∀ (l : List Candidate) (c : Candidate), c ∈ l → c.protocol ≠ .udp →
      c ∈ remove_wrong_farstream_0_1_tcp_candidates l) := by
  constructor
  · intro a b
    have henum : ([a, b]).enum = [(0, a), (1, b)] := rfl
    unfold remove_wrong_farstream_0_1_tcp_candidates
    rw [henum]
    by_cases ha : a.protocol = SipeProtocol.udp
    · by_cases hb : b.protocol = SipeProtocol.udp
      · by_cases hf : b.foundation = a.foundation
        · have hfs : a.foundation = b.foundation := hf.symm
          by_cases hc : rwCond b a
          · rw [if_pos ⟨ha, hb, hf, hc⟩]
            have hl : rwLoop [(0, a), (1, b)] [] [] = [0, 1] := by
              simp [rwLoop, rwLookup, ha, hb, hfs, hc]
            rw [hl]; rfl
          · rw [if_neg (fun hh => hc hh.2.2.2)]
            have hl : rwLoop [(0, a), (1, b)] [] [] = [] := by
              simp [rwLoop, rwLookup, ha, hb, hfs, hc]
            rw [hl]; rfl
        · have hfs : ¬ a.foundation = b.foundation := fun h => hf h.symm
          rw [if_neg (fun hh => hf hh.2.2.1)]
          have hl : rwLoop [(0, a), (1, b)] [] [] = [] := by
            simp [rwLoop, rwLookup, ha, hb, hfs]
          rw [hl]; rfl
      · rw [if_neg (fun hh => hb hh.2.1)]
        have hl : rwLoop [(0, a), (1, b)] [] [] = [] := by
          simp [rwLoop, rwLookup, ha, hb]
        rw [hl]; rfl
    · rw [if_neg (fun hh => ha hh.1)]
      by_cases hb : b.protocol = SipeProtocol.udp
      · have hl : rwLoop [(0, a), (1, b)] [] [] = [] := by
          simp [rwLoop, rwLookup, ha, hb]
        rw [hl]; rfl
      · have hl : rwLoop [(0, a), (1, b)] [] [] = [] := by
          simp [rwLoop, rwLookup, ha, hb]
        rw [hl]; rfl
  · intro l c hc hcu
    obtain ⟨i, hi⟩ := List.mem_iff_getElem?.mp hc
    have hie : (i, c) ∈ l.enum := List.mk_mem_enum_iff_getElem?.mpr hi
    have hnr : i ∉ rwLoop l.enum [] [] := by
      intro hmem
      rcases rwLoop_mem _ _ _ _ hmem with h | ⟨c', hc', hcu'⟩ | ⟨g, c', hgc⟩
      · exact absurd h (List.not_mem_nil i)
      · have : l[i]? = some c' := List.mk_mem_enum_iff_getElem?.mp hc'
        rw [hi] at this
        have : c = c' := by injection this
        exact hcu (this ▸ hcu')
      · exact absurd hgc (List.not_mem_nil _)
    unfold remove_wrong_farstream_0_1_tcp_candidates
    refine List.mem_map.mpr ⟨(i, c), List.mem_filter.mpr ⟨hie, ?_⟩, rfl⟩
    simpa using hnr

/-- Closed witness for C5: a TCP-passive candidate survives normalisation
of a list in which a UDP candidate shares its foundation and port. -/
theorem C5_discard_rule_witness :
    c5tcp ∈ remove_wrong_farstream_0_1_tcp_candidates [c5tcp, c5a1] :=
  C5_discard_rule.2 [c5tcp, c5a1] c5tcp (by decide) (by decide)

/-- Membership in a sorted insertion: the new codec or an old one. -/
theorem mem_insertSortedCodec (c x : SdpCodec) (l : List SdpCodec) :
    x ∈ insertSortedCodec c l ↔ x = c ∨ x ∈ l := by
  induction l with
  | nil => simp [insertSortedCodec]
  | cons hd tl ih =>
    simp only [insertSortedCodec]
    split
    · simp only [List.mem_cons, ih]
      tauto
    · simp [List.mem_cons]

/-- Sorted insertion of a codec whose id is fresh keeps the codec list
strictly sorted by id. -/
theorem pairwise_insertSortedCodec (c : SdpCodec) (l : List SdpCodec)
    (hs : l.Pairwise (fun a b => a.id < b.id))
    (hne : ∀ x ∈ l, x.id ≠ c.id) :
    (insertSortedCodec c l).Pairwise (fun a b => a.id < b.id) := by
  induction l with
  | nil => simp [insertSortedCodec]
  | cons hd tl ih =>
    rw [List.pairwise_cons] at hs
    simp only [insertSortedCodec]
    split
    · rename_i hlt
      have hdc : hd.id < c.id := by
        unfold sdpcodec_compare at hlt; omega
      refine List.Pairwise.cons ?_
        (ih hs.2 (fun x hx => hne x (List.mem_cons_of_mem _ hx)))
      intro y hy
      rcases (mem_insertSortedCodec c y tl).mp hy with rfl | hyt
      · exact hdc
      · exact hs.1 y hyt
    · rename_i hnlt
      have hle : c.id ≤ hd.id := by
        unfold sdpcodec_compare at hnlt; omega
      have hne0 : hd.id ≠ c.id := hne hd (List.mem_cons_self ..)
      have hclt : c.id < hd.id := lt_of_le_of_ne hle (fun h => hne0 h.symm)
      refine List.Pairwise.cons ?_ (List.Pairwise.cons hs.1 hs.2)
      intro y hy
      rcases List.mem_cons.mp hy with rfl | hyt
      · exact hclt
      · exact lt_trans hclt (hs.1 y hyt)

/-- One step of the codec-conversion loop preserves `CodecInv`. -/
theorem codecInv_step (done acc : List SdpCodec) (c : SdpCodec)
    (h : CodecInv done acc) :
    CodecInv (done ++ [c]) (sipe_utils_slist_insert_unique_sorted acc c) := by
  obtain ⟨hs, hmem, hcov⟩ := h
  unfold sipe_utils_slist_insert_unique_sorted
  split
  · rename_i hany
    have hex : ∃ y ∈ acc, y.id = c.id := by
      simpa [sdpcodec_compare, sub_eq_zero] using hany
    obtain ⟨z, hz, hzid⟩ := hex
    have hfz : done.find? (fun y => y.id == c.id) = some z := by
      have hf := (hmem z).mp hz
      rw [← hzid]
      exact hf
    refine ⟨hs, ?_, ?_⟩
    · intro x
      rw [hmem x, List.find?_append]
      constructor
      · intro hf
        rw [hf]
        rfl
      · intro hf
        rcases Option.or_eq_some.mp hf with hd | ⟨hd, hcx⟩
        · exact hd
        · exfalso
          have hxc : c = x := by
            rcases List.find?_cons_eq_some.mp hcx with ⟨_, he⟩ | ⟨_, hn⟩
            · exact he
            · exact absurd hn (by simp)
          subst hxc
          rw [hfz] at hd
          exact Option.noConfusion hd
    · intro y hy
      rcases List.mem_append.mp hy with hyd | hyc
      · exact hcov y hyd
      · have : y = c := by simpa using hyc
        exact ⟨z, hz, by rw [hzid, this]⟩
  · rename_i hnany
    have hnex : ∀ y ∈ acc, y.id ≠ c.id := by
      intro y hy hyc
      exact hnany (by
        simp only [List.any_eq_true]
        exact ⟨y, hy, by simp [sdpcodec_compare, sub_eq_zero, hyc]⟩)
    have hdnone : done.find? (fun y => y.id == c.id) = none := by
      rw [List.find?_eq_none]
      intro y hy hpy
      have hyc : y.id = c.id := by simpa using hpy
      obtain ⟨x, hx, hxid⟩ := hcov y hy
      exact hnex x hx (hxid.trans hyc)
    refine ⟨pairwise_insertSortedCodec c acc hs hnex, ?_, ?_⟩
    · intro x
      rw [mem_insertSortedCodec, List.find?_append]
      constructor
      · rintro (rfl | hx)
        · rw [hdnone]
          simp
        · rw [(hmem x).mp hx]
          rfl
      · intro hf
        rcases Option.or_eq_some.mp hf with hd | ⟨hd, hcx⟩
        · exact Or.inr ((hmem x).mpr hd)
        · left
          rcases List.find?_cons_eq_some.mp hcx with ⟨_, he⟩ | ⟨_, hn⟩
          · exact he.symm
          · exact absurd hn (by simp)
    · intro y hy
      rcases List.mem_append.mp hy with hyd | hyc
      · obtain ⟨x, hx, hxid⟩ := hcov y hyd
        exact ⟨x, (mem_insertSortedCodec ..).mpr (Or.inr hx), hxid⟩
      · have : y = c := by simpa using hyc
        subst this
        exact ⟨y, (mem_insertSortedCodec ..).mpr (Or.inl rfl), rfl⟩

/-- The codec-conversion loop establishes `CodecInv` over any suffix. -/
theorem codecInv_fold (xs : List SdpCodec) :
    ∀ done acc, CodecInv done acc →
      CodecInv (done ++ xs) (xs.foldl sipe_utils_slist_insert_unique_sorted acc) := by
  induction xs with
  | nil =>
    intro done acc h
    simpa using h
  | cons x xs ih =>
    intro done acc h
    have h2 := ih (done ++ [x]) _ (codecInv_step done acc x h)
    simpa [List.append_assoc] using h2

/-- `convertCodecs` satisfies the invariant against the full backend
list. -/
theorem convertCodecs_inv (t : SipeMediaType) (bcs : List BackendCodec) :
    CodecInv (bcs.map (backendCodecToSdp t)) (convertCodecs t bcs) := by
  unfold convertCodecs
  rw [← List.foldl_map]
  simpa using codecInv_fold (bcs.map (backendCodecToSdp t)) [] []
    ⟨by simp, by simp, by simp⟩

/-- Claim C4: in every media section the core serialises, the codec list is
strictly ordered by payload id (hence never contains two codecs with the
same id); a codec is in the list exactly when it is the *first* backend
codec carrying its id (later duplicates are dropped); and every backend
codec's id is represented. -/
theorem C4_codecs_unique_sorted (core : CoreState) (call : CallState)
    (s : StreamState) (t : SipeMediaType) (m : SdpMedia)
    (ht : mediaTypeOfName s.id = some t)
    (h : media_stream_to_sdpmedia core call s = some m) :
    m.codecs.Pairwise (fun a b => a.id < b.id) ∧
    (∀ c, c ∈ m.codecs ↔
      (s.localCodecs.map (backendCodecToSdp t)).find? (fun y => y.id == c.id)
        = some c) ∧
    (∀ y ∈ s.localCodecs.map (backendCodecToSdp t), ∃ c ∈ m.codecs, c.id = y.id) := by
  have hmc : m.codecs = convertCodecs t s.localCodecs := by
    unfold media_stream_to_sdpmedia at h
    rw [ht] at h
    simp only [Option.some.injEq] at h
    subst h
    rfl
  rw [hmc]
  exact convertCodecs_inv t s.localCodecs

/-- Closed witness for C4: the stream whose backend reports ids 8, 0, 0
serialises with a strictly id-sorted (so duplicate-free) codec list. -/
theorem C4_codecs_unique_sorted_witness :
    ((media_stream_to_sdpmedia c4core c4call c4stream).getD mediaDummy).codecs.Pairwise
      (fun a b => a.id < b.id) :=
  (C4_codecs_unique_sorted c4core c4call c4stream .audio
    ((media_stream_to_sdpmedia c4core c4call c4stream).getD mediaDummy)
    rfl rfl).1

/-- `IdsSub` is reflexive. -/
theorem idsSub_refl (l : List StreamState) : IdsSub l l :=
  fun s hs => ⟨s, hs, rfl⟩

/-- `IdsSub` composes. -/
theorem idsSub_trans {l1 l2 l3 : List StreamState} (h1 : IdsSub l1 l2)
    (h2 : IdsSub l2 l3) : IdsSub l1 l3 := by
  intro s hs
  obtain ⟨s2, hs2, hid2⟩ := h2 s hs
  obtain ⟨s1, hs1, hid1⟩ := h1 s2 hs2
  exact ⟨s1, hs1, hid1.trans hid2⟩

/-- Removing a stream introduces no new ids. -/
theorem idsSub_eraseP (l : List StreamState) (p : StreamState → Bool) :
    IdsSub l (l.eraseP p) :=
  fun s hs => ⟨s, List.mem_of_mem_eraseP hs, rfl⟩

/-- Updating one stream with an id-preserving function introduces no new
ids. -/
theorem idsSub_modifyFirst (l : List StreamState) (p : StreamState → Bool)
    (f : StreamState → StreamState) (hf : ∀ x, (f x).id = x.id) :
    IdsSub l (modifyFirstStream p f l) := by
  induction l with
  | nil => intro s hs; simp [modifyFirstStream] at hs
  | cons hd tl ih =>
    intro s hs
    simp only [modifyFirstStream] at hs
    split at hs
    · rcases List.mem_cons.mp hs with rfl | ht
      · exact ⟨hd, List.mem_cons_self .., (hf hd).symm⟩
      · exact ⟨s, List.mem_cons_of_mem _ ht, rfl⟩
    · rcases List.mem_cons.mp hs with rfl | ht
      · exact ⟨s, List.mem_cons_self .., rfl⟩
      · obtain ⟨s0, hs0, hid⟩ := ih s ht
        exact ⟨s0, List.mem_cons_of_mem _ hs0, hid⟩

/-- Applying one remote section creates no new stream ids. -/
theorem update_call_idsSub (streams : List StreamState) (media : SdpMedia) :
    IdsSub streams (update_call_from_remote_sdp streams media).1 := by
  unfold update_call_from_remote_sdp
  rcases hfind : streamFind streams media.name with _ | stream
  · simp only [hfind]
    split
    · exact idsSub_refl _
    · exact idsSub_refl _
  · simp only [hfind]
    split
    · exact idsSub_eraseP _ _
    · have hS1 : IdsSub streams
          (if (sipe_utils_nameval_find media.attributes "inactive").isSome then
            modifyFirstStream (fun s => s.id == media.name)
              (fun s => { s with isHeld := true }) streams
          else if stream.isHeld then
            modifyFirstStream (fun s => s.id == media.name)
              (fun s => { s with isHeld := false }) streams
          else streams) := by
        split
        · exact idsSub_modifyFirst _ _ _ (fun x => rfl)
        · split
          · exact idsSub_modifyFirst _ _ _ (fun x => rfl)
          · exact idsSub_refl _
      split
      · exact hS1
      · have hS2 : IdsSub streams
            (if media.encryption_key.isSome ∧ stream.encryption_key.isSome then
              modifyFirstStream (fun s => s.id == media.name)
                (fun s =>
                  { s with
                    remoteKeyInstalled := media.encryption_key
                    encryption_key_id := media.encryption_key_id })
                (if (sipe_utils_nameval_find media.attributes "inactive").isSome then
                  modifyFirstStream (fun s => s.id == media.name)
                    (fun s => { s with isHeld := true }) streams
                else if stream.isHeld then
                  modifyFirstStream (fun s => s.id == media.name)
                    (fun s => { s with isHeld := false }) streams
                else streams)
            else
              (if (sipe_utils_nameval_find media.attributes "inactive").isSome then
                modifyFirstStream (fun s => s.id == media.name)
                  (fun s => { s with isHeld := true }) streams
              else if stream.isHeld then
                modifyFirstStream (fun s => s.id == media.name)
                  (fun s => { s with isHeld := false }) streams
              else streams)) := by
          split
          · exact idsSub_trans hS1 (idsSub_modifyFirst _ _ _ (fun x => rfl))
          · exact hS1
        split
        · exact idsSub_trans hS2 (idsSub_modifyFirst _ _ _ (fun x => rfl))
        · exact idsSub_trans hS2 (idsSub_eraseP _ _)

/-- Every section the apply loop marks failed has port 0. -/
theorem applyLoop_failed_port (policy : SipeEncryptionPolicy) :
    ∀ (ms : List SdpMedia) (streams : List StreamState) (enc : Bool)
      (m : SdpMedia),
      m ∈ (applyLoop policy ms streams enc).2.2.1 → m.port = 0 := by
  intro ms
  induction ms with
  | nil =>
    intro streams enc m hm
    simp only [applyLoop, List.not_mem_nil] at hm
  | cons hd rest ih =>
    intro streams enc m hm
    by_cases hok : (update_call_from_remote_sdp streams hd).2 = true
    · simp only [applyLoop, hok, if_true] at hm
      exact ih _ _ _ hm
    · simp only [applyLoop, hok, if_false] at hm
      rcases List.mem_cons.mp hm with rfl | ht
      · rfl
      · exact ih _ _ _ ht

/-- The apply loop creates no new stream ids. -/
theorem applyLoop_idsSub (policy : SipeEncryptionPolicy) :
    ∀ (ms : List SdpMedia) (streams : List StreamState) (enc : Bool),
      IdsSub streams (applyLoop policy ms streams enc).1 := by
  intro ms
  induction ms with
  | nil =>
    intro streams enc
    exact idsSub_refl _
  | cons hd rest ih =>
    intro streams enc
    simp only [applyLoop]
    split
    · exact idsSub_trans (update_call_idsSub streams hd) (ih _ _)
    · exact idsSub_trans (update_call_idsSub streams hd) (ih _ _)

/-- Claim C3 (amended): a media section whose application failed is
retained on the call with port forced to 0 and appears in the next
serialised SDP of that call; that serialisation hands the failed sections
over to the emitted message, leaving none retained, so they are repeated
only once; and neither applying a remote message nor serialising ever
creates a stream — failure never revives one. -/
theorem C3_failed_media_rules :
    (∀ (core : CoreState) (call : CallState) (msg : SdpMsg) (m : SdpMedia),
      m ∈ (apply_remote_message core call msg).1.failed_media → m.port = 0) ∧
    (∀ (core : CoreState) (call : CallState) (m : SdpMedia),
      m ∈ call.failed_media → m ∈ (sipe_media_to_sdpmsg core call).1.media) ∧
    (∀ (core : CoreState) (call : CallState),
      (sipe_media_to_sdpmsg core call).2.failed_media = []) ∧
    (∀ (core : CoreState) (call : CallState),
      (sipe_media_to_sdpmsg core call).2.streams = call.streams) ∧
    (∀ (core : CoreState) (call : CallState) (msg : SdpMsg) (s : StreamState),
      s ∈ (apply_remote_message core call msg).1.streams →
      ∃ s0 ∈ call.streams, s0.id = s.id) := by
  refine ⟨?_, ?_, ?_, ?_, ?_⟩
  · intro core call msg m hm
    exact applyLoop_failed_port _ _ _ _ m hm
  · intro core call m hm
    exact List.mem_append_right _ hm
  · intro core call
    rfl
  · intro core call
    rfl
  · intro core call msg s hs
    exact applyLoop_idsSub _ _ _ _ s hs

/-- Closed witness for C3: the failed video section (port 0) retained on
the call appears in the next serialised SDP. -/
theorem C3_failed_media_rules_witness :
    c3mVideoFailed ∈ (sipe_media_to_sdpmsg c3core c3callFailed).1.media :=
  C3_failed_media_rules.2.1 c3core c3callFailed c3mVideoFailed (by decide)

end Sipe
